import Mathlib

/-!
Verification of the MeshBeat core against its specification.

The definitions below are a shallow embedding of the TypeScript sources:
  src/lib/sync-engine.ts   (clock synchronization engine)
  src/lib/audio-engine.ts  (chunking, Base64 transport encoding, playback scheduling)
  src/lib/peer-manager.ts  (message routing, transfer sessions, master handoff)

JavaScript numbers are modelled as rationals; the arithmetic performed by the
embedded code paths (differences of wall-clock timestamps, halving, small
averages) is exact on doubles at the magnitudes involved. ArrayBuffers are
modelled as lists of byte values, Base64 strings as lists of sextet values
(0..63) with 64 standing for the padding character. Stateful handlers are
modelled as explicit state-transition functions returning the successor state
together with a list of externally visible effects.
-/

/-- Mirrors SyncResult of src/lib/sync-engine.ts. -/
structure SyncResult where
  roundTripTime : ℚ
  clockOffset : ℚ
deriving DecidableEq

/-- Mirrors SyncEngine.calculateOffset (src/lib/sync-engine.ts lines 112-121):
NTP computation followed by the two sanity checks. -/
def calculateOffset (t1 t2 t3 t4 : ℚ) : SyncResult :=
  let roundTripTime := (t4 - t1) - (t3 - t2)
  let clockOffset := ((t2 - t1) + (t3 - t4)) / 2
  let sanitizedOffset := if |clockOffset| > 10000 then 0 else clockOffset
  let sanitizedRTT := if roundTripTime < 0 then |roundTripTime| else roundTripTime
  { roundTripTime := sanitizedRTT, clockOffset := sanitizedOffset }

/-- Mirrors SyncEngine.addSample (lines 126-131): push, then shift the oldest
entry out when the buffer exceeds maxSamples = 10. -/
def addSample (samples : List SyncResult) (result : SyncResult) : List SyncResult :=
  let pushed := samples ++ [result]
  if 10 < pushed.length then pushed.tail else pushed

/-- The sort in SyncEngine.getAverageResult (line 142): ascending by
roundTripTime. Array.prototype.sort is stable, as is mergeSort. -/
def sortSamplesByRTT (samples : List SyncResult) : List SyncResult :=
  samples.mergeSort (fun a b => decide (a.roundTripTime ≤ b.roundTripTime))

/-- The trimming step of SyncEngine.getAverageResult (lines 142-144):
trimCount = Math.floor(length * 0.2), which equals length / 5 (floored) for
every reachable buffer size, then sorted.slice(trimCount,
sorted.length - trimCount || sorted.length). -/
def trimmedSamples (samples : List SyncResult) : List SyncResult :=
  let sorted := sortSamplesByRTT samples
  let trimCount := samples.length / 5
  let sliceEnd := if sorted.length - trimCount = 0 then sorted.length else sorted.length - trimCount
  (sorted.drop trimCount).take (sliceEnd - trimCount)

/-- Mirrors SyncEngine.getAverageResult (lines 136-154). -/
def getAverageResult (samples : List SyncResult) : SyncResult :=
  if samples.length = 0 then { roundTripTime := 0, clockOffset := 0 }
  else
    let trimmed := trimmedSamples samples
    if trimmed.length = 0 then samples.getLastD { roundTripTime := 0, clockOffset := 0 }
    else
      { roundTripTime := (trimmed.map SyncResult.roundTripTime).sum / trimmed.length,
        clockOffset := (trimmed.map SyncResult.clockOffset).sum / trimmed.length }

lemma addSample_length_le (s : List SyncResult) (r : SyncResult)
    (h : s.length ≤ 10) : (addSample s r).length ≤ 10 := by
  simp only [addSample, List.length_append, List.length_cons, List.length_nil]
  split
  · simp
    omega
  · rename_i hlt
    simp only [List.length_append, List.length_cons, List.length_nil] at hlt ⊢
    omega

lemma foldl_addSample_le (rs : List SyncResult) :
    ∀ s : List SyncResult, s.length ≤ 10 → (rs.foldl addSample s).length ≤ 10 := by
  induction rs with
  | nil => intro s h; simpa using h
  | cons r rs ih =>
    intro s h
    simpa using ih (addSample s r) (addSample_length_le s r h)

/-- Claim C1: for timestamps t1 ≤ t2 ≤ t3 ≤ t4 for which the offset sanity
threshold does not trigger (under the ordering the RTT threshold never can),
calculateOffset returns exactly roundTripTime = (t4 - t1) - (t3 - t2) and
clockOffset = ((t2 - t1) + (t3 - t4)) / 2. -/
theorem calculateOffset_closed_form (t1 t2 t3 t4 : ℚ)
    (h12 : t1 ≤ t2) (h23 : t2 ≤ t3) (h34 : t3 ≤ t4)
    (hoff : |((t2 - t1) + (t3 - t4)) / 2| ≤ 10000) :
    calculateOffset t1 t2 t3 t4 =
      { roundTripTime := (t4 - t1) - (t3 - t2),
        clockOffset := ((t2 - t1) + (t3 - t4)) / 2 } := by
  simp only [calculateOffset]
  rw [if_neg (not_lt.2 hoff), if_neg (not_lt.2 (by linarith))]

/-- Witness for C1 at the concrete probe (0, 1, 2, 3). -/
theorem calculateOffset_closed_form_witness :
    calculateOffset 0 1 2 3 =
      { roundTripTime := (3 - 0) - (2 - 1), clockOffset := ((1 - 0) + (2 - 3)) / 2 } :=
  calculateOffset_closed_form 0 1 2 3 (by norm_num) (by norm_num) (by norm_num) (by norm_num)

/-- Claim C5: when the raw clock offset exceeds 10000 in absolute value the
sample is still produced, carrying clockOffset 0 and the usual sanitized RTT;
when the raw RTT is negative the sample carries its absolute value. -/
theorem calculateOffset_sanity (t1 t2 t3 t4 : ℚ) :
    (10000 < |((t2 - t1) + (t3 - t4)) / 2| →
      calculateOffset t1 t2 t3 t4 =
        { roundTripTime :=
            if (t4 - t1) - (t3 - t2) < 0 then |(t4 - t1) - (t3 - t2)|
            else (t4 - t1) - (t3 - t2),
          clockOffset := 0 }) ∧
    ((t4 - t1) - (t3 - t2) < 0 →
      (calculateOffset t1 t2 t3 t4).roundTripTime = |(t4 - t1) - (t3 - t2)|) := by
  constructor
  · intro hoff
    simp only [calculateOffset]
    rw [if_pos hoff]
  · intro hrtt
    simp only [calculateOffset]
    rw [if_pos hrtt]

/-- Witness for C5 at (0, 20000, 30000, 0): raw offset 25000, raw RTT -10000. -/
theorem calculateOffset_sanity_witness :
    calculateOffset 0 20000 30000 0 =
      { roundTripTime :=
          if ((0 : ℚ) - 0) - (30000 - 20000) < 0 then |((0 : ℚ) - 0) - (30000 - 20000)|
          else ((0 : ℚ) - 0) - (30000 - 20000),
        clockOffset := 0 } ∧
    (calculateOffset 0 20000 30000 0).roundTripTime = |((0 : ℚ) - 0) - (30000 - 20000)| :=
  ⟨(calculateOffset_sanity 0 20000 30000 0).1 (by norm_num),
   (calculateOffset_sanity 0 20000 30000 0).2 (by norm_num)⟩

/-- Counterexample for C8: the probe (1000, 1050, 1060, 1120) does not yield
roundTripTime 50 and clockOffset 15. -/
theorem calculateOffset_probe_cex :
    calculateOffset 1000 1050 1060 1120 ≠ { roundTripTime := 50, clockOffset := 15 } := by
  simp only [calculateOffset]
  norm_num [SyncResult.mk.injEq]

/-- Claim C8 (amended): the probe (1000, 1050, 1060, 1120) yields
roundTripTime = (1120 - 1000) - (1060 - 1050) = 110 and
clockOffset = ((1050 - 1000) + (1060 - 1120)) / 2 = -5. -/
theorem calculateOffset_probe :
    calculateOffset 1000 1050 1060 1120 = { roundTripTime := 110, clockOffset := -5 } := by
  simp only [calculateOffset]
  norm_num

/-- Claim C4: the sample ring built by repeated addSample calls never exceeds
10 entries, and adding to a full ring of 10 drops exactly the oldest entry,
keeping the remaining nine in order followed by the new sample. -/
theorem addSample_ring :
    (∀ results : List SyncResult, (results.foldl addSample []).length ≤ 10) ∧
    (∀ (samples : List SyncResult) (r : SyncResult), samples.length = 10 →
      addSample samples r = samples.tail ++ [r]) := by
  constructor
  · intro results
    exact foldl_addSample_le results [] (by simp)
  · intro samples r h
    simp only [addSample]
    rw [if_pos (by simp [h])]
    cases samples with
    | nil => simp at h
    | cons a t => simp

/-- Witness for C4 on a full ring of 10 concrete samples. -/
theorem addSample_ring_witness :
    addSample (List.replicate 10 { roundTripTime := 1, clockOffset := 0 })
        { roundTripTime := 2, clockOffset := 3 } =
      (List.replicate 10 ({ roundTripTime := 1, clockOffset := 0 } : SyncResult)).tail ++
        [{ roundTripTime := 2, clockOffset := 3 }] :=
  addSample_ring.2 (List.replicate 10 { roundTripTime := 1, clockOffset := 0 })
    { roundTripTime := 2, clockOffset := 3 } (by simp)

/-- Claim C3: the aggregate estimate returns {0, 0} on an empty buffer; with
exactly 10 samples it sorts by roundTripTime ascending, drops the 2 lowest and
2 highest, and averages the remaining 6 componentwise; and in the (dead in
practice) branch where trimming empties the set it returns the most recent
sample. -/
theorem getAverageResult_trimmed_mean :
    getAverageResult [] = { roundTripTime := 0, clockOffset := 0 } ∧
    (∀ samples : List SyncResult, samples.length = 10 →
      getAverageResult samples =
        { roundTripTime :=
            ((((sortSamplesByRTT samples).drop 2).take 6).map SyncResult.roundTripTime).sum / 6,
          clockOffset :=
            ((((sortSamplesByRTT samples).drop 2).take 6).map SyncResult.clockOffset).sum / 6 }) ∧
    (∀ samples : List SyncResult, samples ≠ [] → trimmedSamples samples = [] →
      getAverageResult samples =
        samples.getLastD { roundTripTime := 0, clockOffset := 0 }) := by
  refine ⟨by simp [getAverageResult], ?_, ?_⟩
  · intro samples h
    have hs : (sortSamplesByRTT samples).length = 10 := by
      simp [sortSamplesByRTT, List.length_mergeSort, h]
    have htrim : trimmedSamples samples =
        ((sortSamplesByRTT samples).drop 2).take 6 := by
      simp only [trimmedSamples, hs, h]
      norm_num
    have hlen : (trimmedSamples samples).length = 6 := by
      rw [htrim]
      simp [List.length_take, List.length_drop, hs]
    have hne2 : ¬trimmedSamples samples = [] := fun hh => by simp [hh] at hlen
    simp only [getAverageResult, h]
    norm_num
    rw [if_neg hne2]
    rw [htrim] at hlen ⊢
    rw [hlen]
    norm_num
  · intro samples hne htrim
    have hlen : samples.length ≠ 0 := by
      simpa [List.length_eq_zero] using hne
    simp [getAverageResult, htrim, hlen]

/-- Witness for C3 on a concrete buffer of 10 samples. -/
theorem getAverageResult_trimmed_mean_witness :
    getAverageResult (List.replicate 10 { roundTripTime := 1, clockOffset := 2 }) =
      { roundTripTime :=
          ((((sortSamplesByRTT
                (List.replicate 10 { roundTripTime := 1, clockOffset := 2 })).drop 2).take
              6).map SyncResult.roundTripTime).sum / 6,
        clockOffset :=
          ((((sortSamplesByRTT
                (List.replicate 10 { roundTripTime := 1, clockOffset := 2 })).drop 2).take
              6).map SyncResult.clockOffset).sum / 6 } :=
  getAverageResult_trimmed_mean.2.1
    (List.replicate 10 { roundTripTime := 1, clockOffset := 2 }) (by simp)

/-- CHUNK_SIZE from src/lib/protocol.ts: 16 * 1024. -/
def CHUNK_SIZE : ℕ := 16 * 1024

/-- Mirrors arrayBufferToBase64 (src/lib/audio-engine.ts lines 233-240):
bytes are grouped in threes and emitted as four sextets, with 64 standing for
the padding character of btoa. -/
def arrayBufferToBase64 : List ℕ → List ℕ
  | [] => []
  | [a] => [a / 4, a % 4 * 16, 64, 64]
  | [a, b] => [a / 4, a % 4 * 16 + b / 16, b % 16 * 4, 64]
  | a :: b :: c :: rest =>
      a / 4 :: (a % 4 * 16 + b / 16) :: (b % 16 * 4 + c / 64) :: c % 64 ::
        arrayBufferToBase64 rest

/-- Mirrors base64ToArrayBuffer (lines 245-257): atob on groups of four
sextets, stopping at padding. -/
def base64ToArrayBuffer : List ℕ → List ℕ
  | w :: x :: y :: z :: rest =>
      if y = 64 then [w * 4 + x / 16]
      else if z = 64 then [w * 4 + x / 16, x % 16 * 16 + y / 4]
      else (w * 4 + x / 16) :: (x % 16 * 16 + y / 4) :: (y % 4 * 64 + z) ::
        base64ToArrayBuffer rest
  | _ => []

/-- Mirrors chunkArrayBuffer (lines 187-201): split into CHUNK_SIZE slices
(the final slice may be shorter) and Base64-encode each slice. -/
def chunkArrayBuffer (buffer : List ℕ) : List (List ℕ) :=
  if buffer = [] then []
  else arrayBufferToBase64 (buffer.take CHUNK_SIZE) :: chunkArrayBuffer (buffer.drop CHUNK_SIZE)
termination_by buffer.length
decreasing_by
  rename_i h
  cases buffer with
  | nil => exact absurd rfl h
  | cons a l =>
    simp [CHUNK_SIZE]
    omega

/-- Mirrors reassembleChunks (lines 206-228): keep the nonempty string chunks,
fail when none remain, otherwise decode each chunk and concatenate. The throw
of the source is modelled as Except.error. -/
def reassembleChunks (chunks : List (List ℕ)) : Except String (List ℕ) :=
  let validChunks := chunks.filter fun c => decide (0 < c.length)
  if validChunks.length = 0 then Except.error "No valid audio chunks received"
  else Except.ok (validChunks.map base64ToArrayBuffer).flatten

lemma base64_roundtrip_aux :
    ∀ (n : ℕ) (l : List ℕ), l.length ≤ n → (∀ b ∈ l, b < 256) →
      base64ToArrayBuffer (arrayBufferToBase64 l) = l := by
  intro n
  induction n with
  | zero =>
    intro l hl _
    have : l = [] := List.eq_nil_of_length_eq_zero (Nat.le_zero.1 hl)
    subst this
    rfl
  | succ n ih =>
    intro l hl hb
    rcases l with _ | ⟨a, _ | ⟨b, _ | ⟨c, rest⟩⟩⟩
    · rfl
    · have ha : a < 256 := hb a (by simp)
      simp [arrayBufferToBase64, base64ToArrayBuffer]
      omega
    · have ha : a < 256 := hb a (by simp)
      have hbb : b < 256 := hb b (by simp)
      have hy : ¬b % 16 * 4 = 64 := by omega
      simp [arrayBufferToBase64, base64ToArrayBuffer, hy]
      omega
    · have ha : a < 256 := hb a (by simp)
      have hbb : b < 256 := hb b (by simp)
      have hc : c < 256 := hb c (by simp)
      have hy : ¬(b % 16 * 4 + c / 64) = 64 := by omega
      have hz : ¬c % 64 = 64 := by omega
      have hrest : base64ToArrayBuffer (arrayBufferToBase64 rest) = rest := by
        refine ih rest ?_ (fun x hx => hb x (by simp [hx]))
        simp only [List.length_cons] at hl
        omega
      simp [arrayBufferToBase64, base64ToArrayBuffer, hy, hz, hrest]
      omega

/-- Decoding inverts encoding on byte lists. -/
lemma base64_roundtrip (l : List ℕ) (hb : ∀ b ∈ l, b < 256) :
    base64ToArrayBuffer (arrayBufferToBase64 l) = l :=
  base64_roundtrip_aux l.length l le_rfl hb

lemma arrayBufferToBase64_length_pos (l : List ℕ) (h : l ≠ []) :
    0 < (arrayBufferToBase64 l).length := by
  rcases l with _ | ⟨a, _ | ⟨b, _ | ⟨c, rest⟩⟩⟩
  · exact absurd rfl h
  · simp [arrayBufferToBase64]
  · simp [arrayBufferToBase64]
  · simp [arrayBufferToBase64]

lemma chunkArrayBuffer_join :
    ∀ (n : ℕ) (l : List ℕ), l.length ≤ n → (∀ b ∈ l, b < 256) →
      ((chunkArrayBuffer l).map base64ToArrayBuffer).flatten = l ∧
        ∀ ch ∈ chunkArrayBuffer l, 0 < ch.length := by
  intro n
  induction n with
  | zero =>
    intro l hl _
    have : l = [] := List.eq_nil_of_length_eq_zero (Nat.le_zero.1 hl)
    subst this
    rw [chunkArrayBuffer]
    simp
  | succ n ih =>
    intro l hl hb
    by_cases hnil : l = []
    · subst hnil
      rw [chunkArrayBuffer]
      simp
    · rw [chunkArrayBuffer, if_neg hnil]
      have htake : base64ToArrayBuffer (arrayBufferToBase64 (l.take CHUNK_SIZE)) =
          l.take CHUNK_SIZE :=
        base64_roundtrip (l.take CHUNK_SIZE) (fun x hx => hb x (List.mem_of_mem_take hx))
      have hdroplen : (l.drop CHUNK_SIZE).length ≤ n := by
        have h1 : 1 ≤ l.length := List.length_pos.2 hnil
        have h2 : (l.drop CHUNK_SIZE).length = l.length - CHUNK_SIZE := by simp
        have h3 : CHUNK_SIZE = 16384 := by norm_num [CHUNK_SIZE]
        omega
      have hrest := ih (l.drop CHUNK_SIZE) hdroplen
        (fun x hx => hb x (List.mem_of_mem_drop hx))
      constructor
      · simp only [List.map_cons, List.flatten_cons, htake, hrest.1]
        exact List.take_append_drop CHUNK_SIZE l
      · intro ch hch
        rcases List.mem_cons.1 hch with hh | hh
        · subst hh
          refine arrayBufferToBase64_length_pos _ ?_
          simp [List.take_eq_nil_iff, CHUNK_SIZE, hnil]
        · exact hrest.2 ch hh

/-- Counterexample for C2: at payload size 0 the chunk list is empty, so
reassembleChunks fails instead of round-tripping to the empty payload. -/
theorem chunk_roundtrip_empty_cex :
    reassembleChunks (chunkArrayBuffer []) = Except.error "No valid audio chunks received" ∧
      reassembleChunks (chunkArrayBuffer []) ≠ Except.ok [] := by
  have h : reassembleChunks (chunkArrayBuffer []) =
      Except.error "No valid audio chunks received" := by
    rw [chunkArrayBuffer]
    simp [reassembleChunks]
  exact ⟨h, by rw [h]; intro hh; exact Except.noConfusion hh⟩

/-- Claim C2 (amended): for every nonempty byte payload, chunking with
chunkArrayBuffer followed by reassembleChunks returns the payload
byte-identically; for the empty payload reassembleChunks fails with the
no-valid-chunks error instead. -/
theorem chunk_roundtrip (l : List ℕ) (hb : ∀ b ∈ l, b < 256) (hne : l ≠ []) :
    reassembleChunks (chunkArrayBuffer l) = Except.ok l := by
  obtain ⟨hjoin, hpos⟩ := chunkArrayBuffer_join l.length l le_rfl hb
  have hfilter : (chunkArrayBuffer l).filter (fun c => decide (0 < c.length)) =
      chunkArrayBuffer l :=
    List.filter_eq_self.2 (fun c hc => by simpa using hpos c hc)
  have hchne : chunkArrayBuffer l ≠ [] := by
    rw [chunkArrayBuffer, if_neg hne]
    simp
  simp only [reassembleChunks, hfilter]
  rw [if_neg (by simpa [List.length_eq_zero] using hchne), hjoin]

/-- Witness for C2 on the payload [7, 255, 0]. -/
theorem chunk_roundtrip_witness :
    reassembleChunks (chunkArrayBuffer [7, 255, 0]) = Except.ok [7, 255, 0] :=
  chunk_roundtrip [7, 255, 0] (by decide) (by decide)

/-- The action taken by AudioEngine.schedulePlay (src/lib/audio-engine.ts
lines 69-104) as observed at the player interface. -/
inductive PlayAction
  | notReady
  | scheduleFuture (delay : ℚ) (seek : ℚ)
  | startNow (seek : ℚ)
  | noStart
deriving DecidableEq

/-- Mirrors AudioEngine.schedulePlay: localTime = scheduledTime - clockOffset,
delay = Math.max(0, (localTime - now) / 1000); a positive delay schedules in
the future, otherwise lateBy = -delay (necessarily 0 after the clamp) gives
adjustedSeek = seekPosition + lateBy, started only while below the buffer
duration. now is the performance.now() reading; duration the loaded buffer
duration. -/
def schedulePlay (isReady : Bool) (duration now scheduledTime seekPosition clockOffset : ℚ) :
    PlayAction :=
  if !isReady then PlayAction.notReady
  else
    let localTime := scheduledTime - clockOffset
    let delay := max 0 ((localTime - now) / 1000)
    if delay > 0 then PlayAction.scheduleFuture delay seekPosition
    else
      let lateBy := -delay
      let adjustedSeek := seekPosition + lateBy
      if adjustedSeek < duration then PlayAction.startNow adjustedSeek
      else PlayAction.noStart

/-- Claim C7 evaluated at a failing input: with the deadline already passed by
2000 ms, seekPosition 1 s and duration 10 s, the code starts at position 1
rather than the catch-up position 1 + 2000 / 1000 = 3 required by the claim,
because Math.max clamps delay to 0 before lateBy is computed. -/
theorem schedulePlay_late_no_catchup :
    schedulePlay true 10 2000 0 1 0 = PlayAction.startNow 1 ∧
      PlayAction.startNow (1 : ℚ) ≠ PlayAction.startNow (1 + 2000 / 1000) := by
  constructor
  · simp only [schedulePlay]
    norm_num
  · simp only [ne_eq, PlayAction.startNow.injEq]
    norm_num

/-- Playback state of the local participant (src/lib/store.ts). -/
inductive PlaybackStatus
  | stopped
  | loading
  | playing
  | paused
deriving DecidableEq

/-- The slice of the zustand store touched by grantMaster. -/
structure StoreState where
  isMaster : Bool
  clockOffset : ℚ
  playbackState : PlaybackStatus
deriving DecidableEq

/-- Outbound message observed at the connection boundary. -/
inductive OutMessage
  | grantMasterMsg (peerId : String)
deriving DecidableEq

/-- Mirrors PeerManager.grantMaster (src/lib/peer-manager.ts lines 660-671):
when an open connection to peerId is in the table, send GRANT_MASTER and set
the local isMaster flag to false; otherwise do nothing. -/
def grantMaster (connections : List String) (peerId : String) (store : StoreState) :
    StoreState × List OutMessage :=
  if peerId ∈ connections then
    ({ store with isMaster := false }, [OutMessage.grantMasterMsg peerId])
  else (store, [])

/-- Claim C10: grantMaster with an open connection sends the grant and drops
the local master flag, leaving the rest of the store unchanged; without a
connection it sends nothing and changes nothing. -/
theorem grantMaster_spec (connections : List String) (peerId : String) (store : StoreState) :
    (peerId ∈ connections →
      grantMaster connections peerId store =
        ({ store with isMaster := false }, [OutMessage.grantMasterMsg peerId])) ∧
    (peerId ∉ connections → grantMaster connections peerId store = (store, [])) := by
  constructor
  · intro h
    simp [grantMaster, h]
  · intro h
    simp [grantMaster, h]

/-- Witness for C10 with a one-entry connection table. -/
theorem grantMaster_spec_witness :
    grantMaster ["p1"] "p1" ⟨true, 0, PlaybackStatus.stopped⟩ =
      (⟨false, 0, PlaybackStatus.stopped⟩, [OutMessage.grantMasterMsg "p1"]) ∧
    grantMaster ["p1"] "p2" ⟨true, 0, PlaybackStatus.stopped⟩ =
      (⟨true, 0, PlaybackStatus.stopped⟩, []) :=
  ⟨(grantMaster_spec ["p1"] "p1" ⟨true, 0, PlaybackStatus.stopped⟩).1 (by simp),
   (grantMaster_spec ["p1"] "p2" ⟨true, 0, PlaybackStatus.stopped⟩).2 (by simp)⟩

/-- State of the SyncEngine event system: the buffered samples, whether the
repeating interval is installed, and how many one-shot response handlers are
currently registered on the connection. -/
structure SyncEngineState where
  samples : List SyncResult
  intervalActive : Bool
  pendingHandlers : ℕ
deriving DecidableEq

/-- Events of the sync engine embedding: a probe being issued by performSync,
a stopSync call, a SYNC_RESPONSE arriving while a handler is registered, or a
response timeout firing. -/
inductive SyncEvent
  | probe
  | stop
  | response (t1 t2 t3 t4 : ℚ)
  | handlerTimeout
deriving DecidableEq

/-- The externally visible onSyncComplete callback invocation. -/
inductive SyncEffect
  | syncComplete (result : SyncResult)
deriving DecidableEq

/-- One event step of the sync engine (src/lib/sync-engine.ts lines 40-89):
performSync registers a one-shot data handler; stopSync clears the interval
and the samples but does not detach those handlers; an arriving response is
consumed by a handler, adds a sample and fires onSyncComplete; the 1000 ms
timeout just detaches a handler. -/
def syncStep (s : SyncEngineState) (e : SyncEvent) : SyncEngineState × List SyncEffect :=
  match e with
  | SyncEvent.probe => ({ s with pendingHandlers := s.pendingHandlers + 1 }, [])
  | SyncEvent.stop => ({ s with intervalActive := false, samples := [] }, [])
  | SyncEvent.response t1 t2 t3 t4 =>
      if s.pendingHandlers = 0 then (s, [])
      else
        let newSamples := addSample s.samples (calculateOffset t1 t2 t3 t4)
        ({ s with samples := newSamples, pendingHandlers := s.pendingHandlers - 1 },
          [SyncEffect.syncComplete (getAverageResult newSamples)])
  | SyncEvent.handlerTimeout => ({ s with pendingHandlers := s.pendingHandlers - 1 }, [])

/-- Run a list of sync events, accumulating effects. -/
def runSync : SyncEngineState → List SyncEvent → SyncEngineState × List SyncEffect
  | s, [] => (s, [])
  | s, e :: es =>
      let step := syncStep s e
      let rest := runSync step.1 es
      (rest.1, step.2 ++ rest.2)

/-- Fresh engine: no samples, no interval, no handlers. -/
def initialSyncState : SyncEngineState :=
  { samples := [], intervalActive := false, pendingHandlers := 0 }

/-- Claim C9 evaluated on a failing trace: a probe is issued, stopSync is
called, then the response to the pre-stop probe arrives within its 1000 ms
window. The code still adds the sample to the (just cleared) buffer and still
fires onSyncComplete, because stopSync only clears the interval timer and the
sample list, not the registered data handler. -/
theorem stopSync_stale_sample :
    (runSync initialSyncState
        [SyncEvent.probe, SyncEvent.stop, SyncEvent.response 0 10 10 20]).1.samples =
      [calculateOffset 0 10 10 20] ∧
    (runSync initialSyncState
        [SyncEvent.probe, SyncEvent.stop, SyncEvent.response 0 10 10 20]).2 =
      [SyncEffect.syncComplete (getAverageResult [calculateOffset 0 10 10 20])] ∧
    [calculateOffset 0 10 10 20] ≠ ([] : List SyncResult) := by
  refine ⟨?_, ?_, by simp⟩ <;>
    simp [runSync, syncStep, initialSyncState, addSample]

/-- Queued playback intent (PeerManager.pendingPlaybackState). -/
structure PendingPlayback where
  isPlaying : Bool
  seekPosition : ℚ
  startTime : ℚ
deriving DecidableEq

/-- Receiver-side state of PeerManager for one link: the slot array of the
in-flight transfer (none when the map holds no entry for the peer), the
current audio metadata reduced to its totalChunks field, the store playback
state, the loaded audio buffer, the queued playback intent, and the FIFO of
buffers whose audioEngine.loadFromArrayBuffer call is still being awaited.
processReceivedAudio suspends at that await, and only its continuation,
running when the decode settles, executes the finally block that deletes
audioChunks and audioMeta. -/
structure ReceiverState where
  audioChunks : Option (List (Option (List ℕ)))
  audioMeta : Option ℕ
  playbackState : PlaybackStatus
  audioFile : Option (List ℕ)
  pendingPlaybackState : Option PendingPlayback
  pendingDecodes : List (List ℕ)
deriving DecidableEq

/-- Receiver events: the three audio wire messages routed by
PeerManager.handleMessage, plus the internal event that the awaited
loadFromArrayBuffer promise of the oldest in-flight decode settles (ok tells
whether the external decode succeeded). -/
inductive RecvEvent
  | audioMeta (totalChunks : ℕ)
  | audioChunk (chunkIndex : ℕ) (totalChunks : ℕ) (data : List ℕ)
  | audioComplete
  | decodeSettled (ok : Bool)
deriving DecidableEq

/-- Externally visible effects of the receiver: an invocation of
reassembleChunks inside processReceivedAudio, and a catch-up schedulePlay for
a queued intent. -/
inductive RecvEffect
  | reassemble
  | schedulePlayNow (seekPosition : ℚ)
deriving DecidableEq

/-- JavaScript array write chunkArray[i] = data: extend with holes as needed,
then overwrite index i. -/
def writeSlot (slots : List (Option (List ℕ))) (i : ℕ) (d : List ℕ) :
    List (Option (List ℕ)) :=
  (slots ++ List.replicate (i + 1 - slots.length) none).set i (some d)

/-- chunkArray.filter(c => c !== undefined).length: the filled-slot count. -/
def fillCount (slots : List (Option (List ℕ))) : ℕ :=
  slots.countP fun c => c.isSome

/-- The synchronous prefix of PeerManager.processReceivedAudio (lines
479-527): the missing-meta/missing-chunks guard, the reassembleChunks call
and the start of the awaited decode. When reassembleChunks throws, the throw
happens before the first await, so the catch block (playback reverts to
stopped) and the finally block (audioChunks and audioMeta deleted) run
synchronously. When it succeeds, the function suspends at the
loadFromArrayBuffer await with the session still open: audioChunks and
audioMeta are untouched until the continuation runs. The AUDIO_CHUNK path
invokes this function without awaiting it (line 368). -/
def processReceivedAudio (s : ReceiverState) : ReceiverState × List RecvEffect :=
  match s.audioMeta, s.audioChunks with
  | some _, some slots =>
      match reassembleChunks (slots.filterMap id) with
      | Except.ok buffer =>
          ({ s with pendingDecodes := s.pendingDecodes ++ [buffer] }, [RecvEffect.reassemble])
      | Except.error _ =>
          ({ s with playbackState := PlaybackStatus.stopped, audioChunks := none, audioMeta := none }, [RecvEffect.reassemble])
  | _, _ => (s, [])

/-- The continuation of processReceivedAudio after its awaited decode settles
(oldest in-flight decode first): on success publish the buffer, set playback
to stopped, consume a queued playback intent (recomputed schedule, clearing
the intent), and then the finally block deletes audioChunks and audioMeta; on
decode failure the catch reverts playback to stopped and the finally block
likewise discards the session. -/
def decodeSettledStep (ok : Bool) (s : ReceiverState) : ReceiverState × List RecvEffect :=
  match s.pendingDecodes with
  | [] => (s, [])
  | buffer :: rest =>
      if ok then
        match s.pendingPlaybackState with
        | some pending =>
            if pending.isPlaying then
              ({ s with audioFile := some buffer, playbackState := PlaybackStatus.playing, pendingPlaybackState := none, audioChunks := none, audioMeta := none, pendingDecodes := rest },
                [RecvEffect.schedulePlayNow pending.seekPosition])
            else
              ({ s with audioFile := some buffer, playbackState := PlaybackStatus.stopped, pendingPlaybackState := none, audioChunks := none, audioMeta := none, pendingDecodes := rest }, [])
        | none =>
            ({ s with audioFile := some buffer, playbackState := PlaybackStatus.stopped, audioChunks := none, audioMeta := none, pendingDecodes := rest }, [])
      else
        ({ s with playbackState := PlaybackStatus.stopped, audioChunks := none, audioMeta := none, pendingDecodes := rest }, [])

/-- Mirrors the AUDIO_META, AUDIO_CHUNK and AUDIO_COMPLETE cases of
PeerManager.handleMessage (lines 347-399) for one link, together with the
settlement of a pending decode. -/
def handleRecvEvent (s : ReceiverState) (e : RecvEvent) : ReceiverState × List RecvEffect :=
  match e with
  | RecvEvent.audioMeta totalChunks =>
      ({ s with audioMeta := some totalChunks, audioChunks := some [], playbackState := PlaybackStatus.loading }, [])
  | RecvEvent.audioChunk i _ data =>
      match s.audioChunks, s.audioMeta with
      | some slots, some totalChunks =>
          let slots2 := writeSlot slots i data
          let s2 := { s with audioChunks := some slots2 }
          if fillCount slots2 = totalChunks then processReceivedAudio s2
          else (s2, [])
      | _, _ => (s, [])
  | RecvEvent.audioComplete =>
      match s.audioChunks with
      | none => (s, [])
      | some slots =>
          match s.audioMeta with
          | none => (s, [])
          | some _ =>
              if 0 < fillCount slots then processReceivedAudio s
              else ({ s with playbackState := PlaybackStatus.stopped }, [])
  | RecvEvent.decodeSettled ok => decodeSettledStep ok s

/-- Run a list of receiver events, accumulating effects. -/
def runRecv : ReceiverState → List RecvEvent → ReceiverState × List RecvEffect
  | s, [] => (s, [])
  | s, e :: es =>
      let step := handleRecvEvent s e
      let rest := runRecv step.1 es
      (rest.1, step.2 ++ rest.2)

/-- Fresh receiver: nothing in flight, playback stopped. -/
def initialReceiverState : ReceiverState :=
  { audioChunks := none, audioMeta := none, playbackState := PlaybackStatus.stopped,
    audioFile := none, pendingPlaybackState := none, pendingDecodes := [] }

/-- Number of reassembly attempts in an effect list. -/
def reassembleCount (effects : List RecvEffect) : ℕ :=
  effects.countP fun e => decide (e = RecvEffect.reassemble)

/-- Claim C6 evaluated at a failing schedule: in a 2-chunk transfer whose
chunk messages all arrive (out of order), the filled-slot threshold triggers
reassembly, which then suspends awaiting the external decode with the session
still open; an AUDIO_COMPLETE delivered before that decode settles passes
both already-processed guards and triggers a second reassembly, instead of
being the no-op the claim requires. -/
theorem audioComplete_second_reassembly :
    reassembleCount (runRecv initialReceiverState
        [RecvEvent.audioMeta 2, RecvEvent.audioChunk 1 2 [0],
          RecvEvent.audioChunk 0 2 [1]]).2 = 1 ∧
    (runRecv initialReceiverState
        [RecvEvent.audioMeta 2, RecvEvent.audioChunk 1 2 [0],
          RecvEvent.audioChunk 0 2 [1]]).1.audioChunks = some [some [1], some [0]] ∧
    reassembleCount (runRecv initialReceiverState
        [RecvEvent.audioMeta 2, RecvEvent.audioChunk 1 2 [0],
          RecvEvent.audioChunk 0 2 [1], RecvEvent.audioComplete]).2 = 2 ∧
    handleRecvEvent (runRecv initialReceiverState
        [RecvEvent.audioMeta 2, RecvEvent.audioChunk 1 2 [0],
          RecvEvent.audioChunk 0 2 [1]]).1 RecvEvent.audioComplete ≠
      ((runRecv initialReceiverState
          [RecvEvent.audioMeta 2, RecvEvent.audioChunk 1 2 [0],
            RecvEvent.audioChunk 0 2 [1]]).1, []) := by
  refine ⟨?_, ?_, ?_, ?_⟩ <;> decide
